import Mathlib

/-!
Shallow embedding of the forecast endpoint of the UMKM prediction backend
(`src/main.py`, function `predict`, together with the `Prediction` pydantic
schema of `src/schemas.py`).

Numbers are modelled as rationals (`ℚ`): every arithmetic operation the code
performs on in-range inputs is exact, and a rational result is always finite.
Python's true division `2 / (window + 1)` raises `ZeroDivisionError` when the
denominator is zero, so the embedding returns an explicit error in that case
instead of using the total division of `ℚ`.

The request's `series` is modelled as a list of optional rationals so that the
null-filtering on line 87 of `src/main.py` (`[x for x in req.series if x is not
None]`) is represented faithfully.
-/

namespace UMKM

/-- The failure modes of the `/api/predict` handler: the two
`HTTPException(400, ...)` validation errors raised on lines 89 and 106 of
`src/main.py`, and the `ZeroDivisionError` that Python's `2 / (req.window + 1)`
on line 100 raises when `req.window = -1`. -/
inductive PredictError where
  | seriesTooShort
  | unknownMethod
  | zeroDivision
deriving DecidableEq, Repr

/-- The request body of `POST /api/predict` (`PredictRequest` in
`src/main.py`, lines 79-83). `series` entries are optional to model nulls. -/
structure PredictRequest where
  series : List (Option ℚ)
  method : String
  window : ℤ
  alpha : Option ℚ
deriving DecidableEq, Repr

/-- The outcome of the pure forecast computation (lines 87-106 of
`src/main.py`): the lowercased method, the cleaned data, and `pred_value`. -/
structure CoreResult where
  method : String
  data : List ℚ
  predicted : ℚ
deriving DecidableEq, Repr

/-- Python's `str.lower()` (`req.method.lower()` on line 91 of `src/main.py`),
modelled as a character-wise ASCII lowercase map. -/
def strLower (s : String) : String := ⟨s.data.map Char.toLower⟩

/-- The EMA recurrence of lines 101-103 of `src/main.py`: start the estimate
at the head of the list and fold `ema = alpha * v + (1 - alpha) * ema` over
the remaining elements, left to right. On the empty list (unreachable in the
handler, which guarantees at least two elements) the value is 0. -/
def emaFold (alpha : ℚ) : List ℚ → ℚ
  | [] => 0
  | x :: xs => xs.foldl (fun ema v => alpha * v + (1 - alpha) * ema) x

/-- The forecast computation of `predict` (`src/main.py` lines 87-106):
null-filtering, the length check, method normalization and dispatch, the SMA
trailing-window mean, and the EMA fold with its default-alpha derivation. -/
def predictCore (req : PredictRequest) : Except PredictError CoreResult :=
  let data := req.series.filterMap id
  if data.length < 2 then .error .seriesTooShort
  else
    let method := strLower req.method
    if method = "sma" then
      let w : ℤ := max 1 (min req.window (data.length : ℤ))
      let window_vals := data.drop (data.length - w.toNat)
      .ok ⟨method, data, window_vals.sum / (window_vals.length : ℚ)⟩
    else if method = "ema" then
      match req.alpha with
      | some a => .ok ⟨method, data, emaFold a data⟩
      | none =>
        if req.window + 1 = 0 then .error .zeroDivision
        else .ok ⟨method, data, emaFold (2 / ((req.window : ℚ) + 1)) data⟩
    else .error .unknownMethod

/-- The persisted prediction document (`Prediction` in `src/schemas.py`,
lines 29-37). -/
structure Prediction where
  method : String
  window : ℤ
  input_points : List ℚ
  predicted_value : ℚ
deriving DecidableEq, Repr

/-- Pydantic validation of the `Prediction` model: `window` carries
`ge=1, le=90` and `predicted_value` carries `ge=0`; construction raises (here:
returns `.error`) when a constraint is violated. -/
def mkPrediction (method : String) (window : ℤ) (input_points : List ℚ)
    (predicted_value : ℚ) : Except Unit Prediction :=
  if 1 ≤ window ∧ window ≤ 90 ∧ 0 ≤ predicted_value then
    .ok ⟨method, window, input_points, predicted_value⟩
  else .error ()

/-- The success response of `POST /api/predict` (`src/main.py` lines
120-125). -/
structure PredictResponse where
  predicted : ℚ
  method : String
  window : ℤ
  saved_id : Option String
deriving DecidableEq, Repr

/-- The full `/api/predict` handler (`src/main.py` lines 86-125),
parametrized by the persistence collaborator `create` (`create_document`).
The `try`/`except` of lines 109-118 wraps both the construction of the
`Prediction` document and the `create_document` call: any failure of either
yields `inserted_id = None` and the response is returned regardless. -/
def predict (create : Prediction → Except Unit String) (req : PredictRequest) :
    Except PredictError PredictResponse :=
  match predictCore req with
  | .error e => .error e
  | .ok r =>
    let saved_id : Option String :=
      match mkPrediction r.method req.window r.data r.predicted with
      | .ok doc =>
        match create doc with
        | .ok i => some i
        | .error _ => none
      | .error _ => none
    .ok ⟨r.predicted, r.method, req.window, saved_id⟩

/-- Unfolding lemma: a request whose cleaned series has at least two points and
whose lowercased method is `sma` takes the SMA branch of `predictCore`. -/
theorem predictCore_sma_eq (series : List (Option ℚ)) (method : String) (window : ℤ)
    (alpha : Option ℚ) (h2 : 2 ≤ (series.filterMap id).length)
    (hm : strLower method = "sma") :
    predictCore ⟨series, method, window, alpha⟩ =
      .ok ⟨"sma", series.filterMap id,
        ((series.filterMap id).drop ((series.filterMap id).length -
            (max 1 (min window ((series.filterMap id).length : ℤ))).toNat)).sum /
          (((series.filterMap id).drop ((series.filterMap id).length -
            (max 1 (min window ((series.filterMap id).length : ℤ))).toNat)).length : ℚ)⟩ := by
  simp only [predictCore, hm]
  rw [if_neg (by omega)]
  simp

/-- Unfolding lemma: a request whose cleaned series has at least two points,
whose lowercased method is `ema` and whose `alpha` is supplied takes the
explicit-alpha EMA branch of `predictCore`. -/
theorem predictCore_ema_some_eq (series : List (Option ℚ)) (method : String)
    (window : ℤ) (a : ℚ) (h2 : 2 ≤ (series.filterMap id).length)
    (hm : strLower method = "ema") :
    predictCore ⟨series, method, window, some a⟩ =
      .ok ⟨"ema", series.filterMap id, emaFold a (series.filterMap id)⟩ := by
  simp only [predictCore, hm]
  rw [if_neg (by omega)]
  simp

/-- Unfolding lemma: a request whose cleaned series has at least two points,
whose lowercased method is `ema` and whose `alpha` is absent takes the
default-alpha EMA branch of `predictCore`, which divides by `window + 1`. -/
theorem predictCore_ema_none_eq (series : List (Option ℚ)) (method : String)
    (window : ℤ) (h2 : 2 ≤ (series.filterMap id).length)
    (hm : strLower method = "ema") :
    predictCore ⟨series, method, window, none⟩ =
      if window + 1 = 0 then .error .zeroDivision
      else .ok ⟨"ema", series.filterMap id,
        emaFold (2 / ((window : ℚ) + 1)) (series.filterMap id)⟩ := by
  simp only [predictCore, hm]
  rw [if_neg (by omega)]
  simp

/-- The trailing slice `l.drop (l.length - 1)` of a nonempty list is the
one-element list holding its last element. -/
theorem drop_pred_getLast : ∀ (l : List ℚ), l ≠ [] →
    ∃ x, l.drop (l.length - 1) = [x] ∧ l.getLast? = some x
  | [], h => absurd rfl h
  | [x], _ => ⟨x, rfl, rfl⟩
  | x :: y :: t, _ => by
    obtain ⟨z, hz1, hz2⟩ := drop_pred_getLast (y :: t) (by simp)
    exact ⟨z, hz1, hz2⟩

/-- The EMA fold of a nonempty list, written with `headI`/`tail`. -/
theorem emaFold_eq_foldl (a : ℚ) (l : List ℚ) (h : l ≠ []) :
    emaFold a l = l.tail.foldl (fun ema v => a * v + (1 - a) * ema) l.headI := by
  cases l with
  | nil => exact absurd rfl h
  | cons x xs => rfl

/-- C1: for every series with at least 2 usable (non-null) points and method
`sma` (case-insensitively), `predictCore` succeeds and returns the arithmetic
mean of the trailing `w` elements of the cleaned series, where
`w = max 1 (min window (length data))`; in particular `window ≥ length data`
yields the mean of the whole cleaned series and `window ≤ 0` yields its last
element. -/
theorem sma_trailing_mean (series : List (Option ℚ)) (method : String) (window : ℤ)
    (alpha : Option ℚ) (h2 : 2 ≤ (series.filterMap id).length)
    (hm : strLower method = "sma") :
    ∃ r : CoreResult, predictCore ⟨series, method, window, alpha⟩ = .ok r ∧
      r.predicted =
        ((series.filterMap id).drop ((series.filterMap id).length -
            (max 1 (min window ((series.filterMap id).length : ℤ))).toNat)).sum /
          (((max 1 (min window ((series.filterMap id).length : ℤ))).toNat : ℕ) : ℚ) ∧
      (((series.filterMap id).length : ℤ) ≤ window →
        r.predicted = (series.filterMap id).sum / ((series.filterMap id).length : ℚ)) ∧
      (window ≤ 0 → some r.predicted = (series.filterMap id).getLast?) := by
  refine ⟨_, predictCore_sma_eq series method window alpha h2 hm, ?_, ?_, ?_⟩
  all_goals
    set data := series.filterMap id with hdata
    set w : ℤ := max 1 (min window (data.length : ℤ)) with hw
  · have hwle : w ≤ (data.length : ℤ) := by
      rw [hw]
      exact max_le (by exact_mod_cast Nat.one_le_iff_ne_zero.mpr (by omega))
        (min_le_right _ _)
    have htn : w.toNat ≤ data.length := by exact_mod_cast Int.toNat_le.mpr hwle
    simp only [List.length_drop]
    have hlen : data.length - (data.length - w.toNat) = w.toNat := by omega
    rw [hlen]
  · intro hwin
    have hminw : min window (data.length : ℤ) = (data.length : ℤ) :=
      min_eq_right hwin
    have hmaxw : w = (data.length : ℤ) := by
      rw [hw, hminw]
      exact max_eq_right (by exact_mod_cast Nat.one_le_iff_ne_zero.mpr (by omega))
    simp only [hmaxw, Int.toNat_natCast, Nat.sub_self, List.drop_zero]
  · intro hw0
    have hminw : min window (data.length : ℤ) = window :=
      min_eq_left (by omega)
    have hmaxw : w = 1 := by rw [hw, hminw]; exact max_eq_left (by omega)
    obtain ⟨x, hx1, hx2⟩ := drop_pred_getLast data (by
      intro hnil
      rw [hnil] at h2
      simp at h2)
    simp only [hmaxw, Int.toNat_one, hx1, hx2, List.sum_cons, List.sum_nil,
      List.length_cons, List.length_nil, zero_add, Nat.cast_one, add_zero, div_one]

/-- C1 witness: the spec's own example, series `[10, 20, 30, 40]` with
`window = 2`, instantiating `sma_trailing_mean`. -/
theorem sma_trailing_mean_witness :
    ∃ r : CoreResult,
      predictCore ⟨[some 10, some 20, some 30, some 40], "sma", 2, none⟩ = .ok r ∧
      r.predicted =
        (([(10 : ℚ), 20, 30, 40]).drop (4 - (max 1 (min 2 (4 : ℤ))).toNat)).sum /
          (((max 1 (min 2 (4 : ℤ))).toNat : ℕ) : ℚ) ∧
      ((4 : ℤ) ≤ 2 → r.predicted = ([(10 : ℚ), 20, 30, 40]).sum / (4 : ℚ)) ∧
      ((2 : ℤ) ≤ 0 → some r.predicted = ([(10 : ℚ), 20, 30, 40]).getLast?) :=
  sma_trailing_mean [some 10, some 20, some 30, some 40] "sma" 2 none
    (by decide) (by decide)

/-- C2: for every series with at least 2 usable points, method `ema`
(case-insensitively) and an explicitly supplied `alpha = a`, `predictCore`
returns the left-to-right fold that starts the estimate at the head of the
cleaned series and updates `estimate = a * v + (1 - a) * estimate` for each
later element, with no windowing and no early exit. -/
theorem ema_explicit_alpha_fold (series : List (Option ℚ)) (method : String)
    (window : ℤ) (a : ℚ) (h2 : 2 ≤ (series.filterMap id).length)
    (hm : strLower method = "ema") :
    predictCore ⟨series, method, window, some a⟩ =
      .ok ⟨"ema", series.filterMap id,
        (series.filterMap id).tail.foldl (fun estimate v => a * v + (1 - a) * estimate)
          (series.filterMap id).headI⟩ := by
  rw [predictCore_ema_some_eq series method window a h2 hm]
  rw [emaFold_eq_foldl a (series.filterMap id) (by
    intro hnil
    rw [hnil] at h2
    simp at h2)]

/-- C2 witness: the spec's own example, series `[10, 20, 30]` with
`alpha = 1/2`, instantiating `ema_explicit_alpha_fold`. -/
theorem ema_explicit_alpha_fold_witness :
    predictCore ⟨[some 10, some 20, some 30], "ema", 3, some (1/2)⟩ =
      .ok ⟨"ema", [(10 : ℚ), 20, 30],
        ([(10 : ℚ), 20, 30]).tail.foldl
          (fun estimate v => (1/2 : ℚ) * v + (1 - (1/2 : ℚ)) * estimate)
          ([(10 : ℚ), 20, 30]).headI⟩ :=
  ema_explicit_alpha_fold [some 10, some 20, some 30] "ema" 3 (1/2)
    (by decide) (by decide)


/-- Classification helper: `predictCore` reports a too-short series exactly
when the cleaned series has fewer than two elements, whatever the method,
window and alpha. -/
theorem predictCore_tooShort_iff (series : List (Option ℚ)) (method : String)
    (window : ℤ) (alpha : Option ℚ) :
    predictCore ⟨series, method, window, alpha⟩ = .error .seriesTooShort ↔
      (series.filterMap id).length < 2 := by
  constructor
  · intro h
    by_contra hn
    have h2 : 2 ≤ (series.filterMap id).length := by omega
    by_cases hs : strLower method = "sma"
    · rw [predictCore_sma_eq series method window alpha h2 hs] at h
      simp at h
    · by_cases hema : strLower method = "ema"
      · cases alpha with
        | some a =>
          rw [predictCore_ema_some_eq series method window a h2 hema] at h
          simp at h
        | none =>
          rw [predictCore_ema_none_eq series method window h2 hema] at h
          by_cases h0 : window + 1 = 0
          · rw [if_pos h0] at h
            simp at h
          · rw [if_neg h0] at h
            simp at h
      · simp only [predictCore] at h
        rw [if_neg (by omega), if_neg hs, if_neg hema] at h
        simp at h
  · intro h
    simp only [predictCore]
    rw [if_pos h]

/-- Shape helper: on success the result carries the cleaned series and the
lowercased method. -/
theorem predictCore_ok_shape (series : List (Option ℚ)) (method : String)
    (window : ℤ) (alpha : Option ℚ) (r : CoreResult)
    (h : predictCore ⟨series, method, window, alpha⟩ = .ok r) :
    r.data = series.filterMap id ∧ r.method = strLower method := by
  by_cases h1 : (series.filterMap id).length < 2
  · have := (predictCore_tooShort_iff series method window alpha).mpr h1
    rw [h] at this
    simp at this
  · have h2 : 2 ≤ (series.filterMap id).length := by omega
    by_cases hs : strLower method = "sma"
    · rw [predictCore_sma_eq series method window alpha h2 hs] at h
      obtain rfl := (Except.ok.inj h).symm
      exact ⟨rfl, hs.symm⟩
    · by_cases hema : strLower method = "ema"
      · cases alpha with
        | some a =>
          rw [predictCore_ema_some_eq series method window a h2 hema] at h
          obtain rfl := (Except.ok.inj h).symm
          exact ⟨rfl, hema.symm⟩
        | none =>
          rw [predictCore_ema_none_eq series method window h2 hema] at h
          by_cases h0 : window + 1 = 0
          · rw [if_pos h0] at h
            simp at h
          · rw [if_neg h0] at h
            obtain rfl := (Except.ok.inj h).symm
            exact ⟨rfl, hema.symm⟩
      · simp only [predictCore] at h
        rw [if_neg (by omega), if_neg hs, if_neg hema] at h
        simp at h

/-- C3 counterexample: with method `ema`, no alpha, and `window = -1`, the
default-alpha derivation `2 / (window + 1)` divides by zero: the engine fails
with an error that is neither of the two defined validation errors, refuting
the claim that no other failure mode exists. -/
theorem ema_default_alpha_crash :
    predictCore ⟨[some 1, some 2], "ema", -1, none⟩ = .error .zeroDivision ∧
      PredictError.zeroDivision ≠ .seriesTooShort ∧
      PredictError.zeroDivision ≠ .unknownMethod := by
  refine ⟨?_, by decide, by decide⟩
  have h1 : strLower "ema" = "ema" := by decide
  have h2 : ("ema" : String) ≠ "sma" := by decide
  norm_num [predictCore, h1, h2, List.filterMap]

/-- C3 (amended): `predictCore` fails with `seriesTooShort` exactly when the
cleaned series has fewer than 2 points, with `unknownMethod` exactly when the
lowercased method is neither `sma` nor `ema`, and with a zero-division error
exactly when the method is `ema`, alpha is absent and `window = -1`; in every
other case it succeeds (and over `ℚ` every successful value is a finite
number). -/
theorem predict_failure_classification (req : PredictRequest) :
    (predictCore req = .error .seriesTooShort ↔
      (req.series.filterMap id).length < 2) ∧
    (predictCore req = .error .unknownMethod ↔
      2 ≤ (req.series.filterMap id).length ∧ strLower req.method ≠ "sma" ∧
        strLower req.method ≠ "ema") ∧
    (predictCore req = .error .zeroDivision ↔
      2 ≤ (req.series.filterMap id).length ∧ strLower req.method = "ema" ∧
        req.alpha = none ∧ req.window = -1) ∧
    (predictCore req = .error .seriesTooShort ∨
      predictCore req = .error .unknownMethod ∨
      predictCore req = .error .zeroDivision ∨
      ∃ r, predictCore req = .ok r) := by
  obtain ⟨series, method, window, alpha⟩ := req
  by_cases h1 : (series.filterMap id).length < 2
  · have hn2 : ¬ 2 ≤ (series.filterMap id).length := by omega
    have he : predictCore ⟨series, method, window, alpha⟩ = .error .seriesTooShort := by
      simp only [predictCore]
      rw [if_pos h1]
    exact ⟨by simp [he, h1], by simp [he, hn2], by simp [he, hn2], Or.inl he⟩
  · have h2 : 2 ≤ (series.filterMap id).length := by omega
    by_cases hs : strLower method = "sma"
    · have he := predictCore_sma_eq series method window alpha h2 hs
      have hsne : strLower method ≠ "ema" := by rw [hs]; decide
      exact ⟨by simp [he, h1], by simp [he, hs], by simp [he, hsne],
        Or.inr (Or.inr (Or.inr ⟨_, he⟩))⟩
    · by_cases hema : strLower method = "ema"
      · cases alpha with
        | some a =>
          have he := predictCore_ema_some_eq series method window a h2 hema
          exact ⟨by simp [he, h1], by simp [he, hema], by simp [he],
            Or.inr (Or.inr (Or.inr ⟨_, he⟩))⟩
        | none =>
          by_cases h0 : window + 1 = 0
          · have hw : window = -1 := by omega
            have he : predictCore ⟨series, method, window, none⟩ =
                .error .zeroDivision := by
              rw [predictCore_ema_none_eq series method window h2 hema, if_pos h0]
            exact ⟨by simp [he, h1], by simp [he, hema],
              by rw [he]; simp [h2, hema, hw], Or.inr (Or.inr (Or.inl he))⟩
          · have hw : window ≠ -1 := by omega
            have he : predictCore ⟨series, method, window, none⟩ =
                .ok ⟨"ema", series.filterMap id,
                  emaFold (2 / ((window : ℚ) + 1)) (series.filterMap id)⟩ := by
              rw [predictCore_ema_none_eq series method window h2 hema, if_neg h0]
            exact ⟨by simp [he, h1], by simp [he, hema], by simp [he, hw],
              Or.inr (Or.inr (Or.inr ⟨_, he⟩))⟩
      · have he : predictCore ⟨series, method, window, alpha⟩ =
            .error .unknownMethod := by
          simp only [predictCore]
          rw [if_neg (by omega), if_neg hs, if_neg hema]
        exact ⟨by simp [he, h1], by simp [he, h2, hs, hema], by simp [he, hema],
          Or.inr (Or.inl he)⟩

/-- C4: for every series with at least 2 usable points and method `ema`
(case-insensitively), when `alpha` is absent the smoothing factor used is
exactly `2 / (window + 1)` (whenever that derivation is performed at all,
i.e. `window + 1 ≠ 0`), and when `alpha = a` is supplied it is used verbatim,
with no range check and overriding the derived value. -/
theorem ema_alpha_resolution (series : List (Option ℚ)) (method : String)
    (window : ℤ) (alpha : Option ℚ) (h2 : 2 ≤ (series.filterMap id).length)
    (hm : strLower method = "ema") :
    (alpha = none → window + 1 ≠ 0 →
      predictCore ⟨series, method, window, alpha⟩ =
        .ok ⟨"ema", series.filterMap id,
          emaFold (2 / ((window : ℚ) + 1)) (series.filterMap id)⟩) ∧
    (∀ a : ℚ, alpha = some a →
      predictCore ⟨series, method, window, alpha⟩ =
        .ok ⟨"ema", series.filterMap id, emaFold a (series.filterMap id)⟩) := by
  constructor
  · rintro rfl h0
    rw [predictCore_ema_none_eq series method window h2 hm, if_neg h0]
  · rintro a rfl
    exact predictCore_ema_some_eq series method window a h2 hm

/-- C4 witness: the spec's example `series = [10, 20, 30]`, `window = 3`,
alpha omitted, instantiating `ema_alpha_resolution`. -/
theorem ema_alpha_resolution_witness :
    predictCore ⟨[some 10, some 20, some 30], "ema", 3, none⟩ =
      .ok ⟨"ema", [(10 : ℚ), 20, 30],
        emaFold (2 / (((3 : ℤ) : ℚ) + 1)) [(10 : ℚ), 20, 30]⟩ :=
  (ema_alpha_resolution [some 10, some 20, some 30] "ema" 3 none
    (by decide) (by decide)).1 rfl (by decide)

/-- The cleaned series, mapped back to optional values, is a sublist of the
original series: null removal preserves the order of the remaining values. -/
theorem filterMap_id_map_some_sublist : ∀ (l : List (Option ℚ)),
    ((l.filterMap id).map some).Sublist l
  | [] => by simp
  | none :: t => by
    simpa [List.filterMap_cons] using (filterMap_id_map_some_sublist t).cons none
  | some x :: t => by
    simpa [List.filterMap_cons] using (filterMap_id_map_some_sublist t).cons₂ (some x)

/-- C5: null entries are removed before the length check and before any
computation — the cleaned series is an order-preserving selection of exactly
the non-null entries — and whenever fewer than 2 usable points remain the
engine fails with the too-short-series validation error, regardless of method,
window and alpha, returning no result. -/
theorem null_removal_and_short_series (series : List (Option ℚ)) (method : String)
    (window : ℤ) (alpha : Option ℚ) :
    ((series.filterMap id).map some).Sublist series ∧
    (∀ x : ℚ, x ∈ series.filterMap id ↔ some x ∈ series) ∧
    (predictCore ⟨series, method, window, alpha⟩ = .error .seriesTooShort ↔
      (series.filterMap id).length < 2) ∧
    (∀ r, predictCore ⟨series, method, window, alpha⟩ = .ok r →
      r.data = series.filterMap id) := by
  refine ⟨filterMap_id_map_some_sublist series, ?_, predictCore_tooShort_iff series method window alpha,
    fun r h => (predictCore_ok_shape series method window alpha r h).1⟩
  intro x
  simp [List.mem_filterMap]

/-- C6: for every series with at least 2 usable points and every method whose
lowercase form is neither `sma` nor `ema`, `predictCore` fails with the
unknown-method validation error and no forecast is computed. -/
theorem unknown_method_rejected (series : List (Option ℚ)) (method : String)
    (window : ℤ) (alpha : Option ℚ) (h2 : 2 ≤ (series.filterMap id).length)
    (hs : strLower method ≠ "sma") (he : strLower method ≠ "ema") :
    predictCore ⟨series, method, window, alpha⟩ = .error .unknownMethod := by
  simp only [predictCore]
  rw [if_neg (by omega), if_neg hs, if_neg he]

/-- C6 witness: method `arima` on a valid two-point series, instantiating
`unknown_method_rejected`. -/
theorem unknown_method_rejected_witness :
    predictCore ⟨[some 10, some 20], "arima", 3, none⟩ = .error .unknownMethod :=
  unknown_method_rejected [some 10, some 20] "arima" 3 none
    (by decide) (by decide) (by decide)


/-- Unfolding lemma for the handler: when the computation succeeds, the
response carries the predicted value, the lowercased method, the caller's
window, and the saved id produced by the record construction and the
persistence call. -/
theorem predict_ok_eq (create : Prediction → Except Unit String)
    (req : PredictRequest) (r : CoreResult) (h : predictCore req = .ok r) :
    predict create req = .ok ⟨r.predicted, r.method, req.window,
      match mkPrediction r.method req.window r.data r.predicted with
      | .ok doc =>
        match create doc with
        | .ok i => some i
        | .error _ => none
      | .error _ => none⟩ := by
  simp only [predict, h]

/-- C7: a failure of the persistence step is swallowed: whenever a run with
some persistence collaborator succeeds, the same request against an
always-failing collaborator still succeeds, with identical `predicted`,
`method` and `window` fields and `saved_id = none`; the storage error is never
propagated. -/
theorem persistence_failure_swallowed
    (createS createF : Prediction → Except Unit String)
    (hF : ∀ d, createF d = .error ()) (req : PredictRequest)
    (resp : PredictResponse) (h : predict createS req = .ok resp) :
    predict createF req = .ok ⟨resp.predicted, resp.method, resp.window, none⟩ := by
  obtain ⟨r, hc⟩ : ∃ r, predictCore req = .ok r := by
    cases hp : predictCore req with
    | ok r => exact ⟨r, rfl⟩
    | error e =>
      simp [predict, hp] at h
  rw [predict_ok_eq createS req r hc] at h
  obtain rfl := Except.ok.inj h
  rw [predict_ok_eq createF req r hc]
  cases hmk : mkPrediction r.method req.window r.data r.predicted with
  | ok doc => simp [hmk, hF doc]
  | error u => simp [hmk]

/-- C7 witness: SMA on `[10, 20, 30, 40]` with `window = 2` against a failing
store returns the same prediction with a null saved id, instantiating
`persistence_failure_swallowed` with a succeeding and a failing
collaborator. -/
theorem persistence_failure_swallowed_witness :
    predict (fun _ => .error ()) ⟨[some 10, some 20, some 30, some 40], "sma", 2, none⟩ =
      .ok ⟨35, "sma", 2, none⟩ :=
  persistence_failure_swallowed (fun _ => .ok "stored") (fun _ => .error ())
    (fun _ => rfl) ⟨[some 10, some 20, some 30, some 40], "sma", 2, none⟩
    ⟨35, "sma", 2, some "stored"⟩ (by
      have h1 : strLower "sma" = "sma" := by decide
      have h3 : (2 : ℤ).toNat = 2 := rfl
      norm_num [predict, predictCore, mkPrediction, h1, h3, List.filterMap])

/-- C8: with an explicitly supplied alpha, the EMA result is independent of
the window parameter: `predictCore` gives the same outcome for any two
windows, since EMA consumes the entire cleaned series and reads the window
only to derive a default alpha. -/
theorem ema_window_irrelevant (series : List (Option ℚ)) (method : String)
    (w1 w2 : ℤ) (a : ℚ) (hm : strLower method = "ema") :
    predictCore ⟨series, method, w1, some a⟩ =
      predictCore ⟨series, method, w2, some a⟩ := by
  by_cases h1 : (series.filterMap id).length < 2
  · rw [(predictCore_tooShort_iff series method w1 (some a)).mpr h1,
      (predictCore_tooShort_iff series method w2 (some a)).mpr h1]
  · have h2 : 2 ≤ (series.filterMap id).length := by omega
    rw [predictCore_ema_some_eq series method w1 a h2 hm,
      predictCore_ema_some_eq series method w2 a h2 hm]

/-- C8 witness: windows `0` and `100` (and an out-of-range alpha, used
verbatim) give the same EMA outcome, instantiating `ema_window_irrelevant`. -/
theorem ema_window_irrelevant_witness :
    predictCore ⟨[some 10, some 20], "ema", 0, some 3⟩ =
      predictCore ⟨[some 10, some 20], "ema", 100, some 3⟩ :=
  ema_window_irrelevant [some 10, some 20] "ema" 0 100 3 (by decide)

/-- C9: for every successful SMA prediction the response's `window` field is
the caller-supplied window, not the clamped value used in the computation, and
the persisted record (observed through a collaborator that echoes the stored
window) also carries the caller-supplied window whenever the record passes
validation. -/
theorem caller_window_reported_and_persisted (series : List (Option ℚ))
    (method : String) (window : ℤ) (alpha : Option ℚ)
    (h2 : 2 ≤ (series.filterMap id).length) (hm : strLower method = "sma") :
    ∃ resp : PredictResponse,
      predict (fun d => .ok (toString d.window))
        ⟨series, method, window, alpha⟩ = .ok resp ∧
      resp.window = window ∧
      (1 ≤ window → window ≤ 90 → 0 ≤ resp.predicted →
        resp.saved_id = some (toString window)) := by
  obtain ⟨P, hc⟩ : ∃ P : ℚ, predictCore ⟨series, method, window, alpha⟩ =
      .ok ⟨"sma", series.filterMap id, P⟩ :=
    ⟨_, predictCore_sma_eq series method window alpha h2 hm⟩
  refine ⟨_, predict_ok_eq (fun d => .ok (toString d.window)) _ _ hc, rfl, ?_⟩
  intro hw1 hw90 hpred
  have hmk : mkPrediction "sma" window (series.filterMap id) P =
      .ok ⟨"sma", window, series.filterMap id, P⟩ := by
    simp only [mkPrediction]
    exact if_pos ⟨hw1, hw90, hpred⟩
  simp [hmk]

/-- C9 witness: series `[10, 20, 30]` with `window = 50` (larger than the
data, so the computation clamps to 3 while the response and the stored record
keep 50), instantiating `caller_window_reported_and_persisted`. -/
theorem caller_window_reported_and_persisted_witness :
    ∃ resp : PredictResponse,
      predict (fun d => .ok (toString d.window))
        ⟨[some 10, some 20, some 30], "sma", 50, none⟩ = .ok resp ∧
      resp.window = 50 ∧
      (1 ≤ (50 : ℤ) → (50 : ℤ) ≤ 90 → 0 ≤ resp.predicted →
        resp.saved_id = some (toString (50 : ℤ))) :=
  caller_window_reported_and_persisted [some 10, some 20, some 30] "sma" 50 none
    (by decide) (by decide)

/-- C10: when a successful computation violates the record's validation
constraints (`1 ≤ window ≤ 90` and `predicted ≥ 0`), record construction
fails, the failure is swallowed, nothing is persisted even against an
always-succeeding store, and the response still succeeds with a null saved
id. -/
theorem invalid_record_swallowed (create : Prediction → Except Unit String)
    (req : PredictRequest) (r : CoreResult) (h : predictCore req = .ok r)
    (hv : ¬(1 ≤ req.window ∧ req.window ≤ 90 ∧ 0 ≤ r.predicted)) :
    predict create req = .ok ⟨r.predicted, r.method, req.window, none⟩ := by
  rw [predict_ok_eq create req r h]
  have hmk : mkPrediction r.method req.window r.data r.predicted = .error () := by
    simp only [mkPrediction]
    rw [if_neg hv]
  simp [hmk]

/-- C10 witness: SMA over a negative series gives a negative prediction, the
record fails pydantic validation, and the response still succeeds with
`saved_id = none` although the store always succeeds, instantiating
`invalid_record_swallowed`. -/
theorem invalid_record_swallowed_witness :
    predict (fun _ => .ok "ignored") ⟨[some (-5), some (-3)], "sma", 2, none⟩ =
      .ok ⟨-4, "sma", 2, none⟩ :=
  invalid_record_swallowed (fun _ => .ok "ignored")
    ⟨[some (-5), some (-3)], "sma", 2, none⟩ ⟨"sma", [-5, -3], -4⟩
    (by
      have h1 : strLower "sma" = "sma" := by decide
      have h3 : (2 : ℤ).toNat = 2 := rfl
      norm_num [predictCore, h1, h3, List.filterMap])
    (by decide)

end UMKM
